import Mathlib

/-!
Verification development for the dustfall atmosphere/material simulation
engine (src/engine.rs). The Rust code is shallowly embedded: i64 amounts
become unbounded integers (`Int`), Rust integer division `/` (which
truncates toward zero) becomes `Int.tdiv`, mutation becomes explicit state
passing over a `List Container`, and every Rust `assert!`/`panic!` path is
modelled either as an `Option` result at the registration API or, inside
`tick`, as an unchanged state guarded by well-formedness hypotheses in the
theorems.
-/

namespace Dustfall

/-- Rust: ContainerId(usize), an index into the engine's container table. -/
structure ContainerId where
  index : Nat
deriving DecidableEq

/-- Rust: Volume(i64). -/
structure Volume where
  val : Int
deriving DecidableEq

/-- Rust: Volume::new — stores the value with no validity check. -/
def Volume.new (value : Int) : Volume := ⟨value⟩

/-- Rust: Volume::value. -/
def Volume.value (v : Volume) : Int := v.val

/-- Rust: Gas — four species amounts in integer moles. -/
structure Gas where
  o2 : Int
  co2 : Int
  co : Int
  h2o : Int
deriving DecidableEq

/-- Rust: Gas::zero. -/
def Gas.zero : Gas := ⟨0, 0, 0, 0⟩

/-- Rust: Gas::is_non_negative. -/
def Gas.is_non_negative (g : Gas) : Bool :=
  decide (0 ≤ g.o2) && decide (0 ≤ g.co2) && decide (0 ≤ g.co) && decide (0 ≤ g.h2o)

/-- Rust: Gas::partial_pressure — amount / volume with truncating division. -/
def Gas.species_pressure (amount : Int) (volume : Volume) : Int :=
  amount.tdiv volume.value

/-- Rust: Gas::pressure — sum of the four per-species pressures. -/
def Gas.pressure (g : Gas) (volume : Volume) : Int :=
  Gas.species_pressure g.o2 volume + Gas.species_pressure g.co2 volume
    + Gas.species_pressure g.co volume + Gas.species_pressure g.h2o volume

/-- Rust: Gas::can_apply_delta. -/
def Gas.can_apply_delta (g delta : Gas) : Bool :=
  decide (0 ≤ g.o2 + delta.o2) && decide (0 ≤ g.co2 + delta.co2)
    && decide (0 ≤ g.co + delta.co) && decide (0 ≤ g.h2o + delta.h2o)

/-- Rust: Gas::apply_delta (component-wise addition). -/
def Gas.apply_delta (g delta : Gas) : Gas :=
  ⟨g.o2 + delta.o2, g.co2 + delta.co2, g.co + delta.co, g.h2o + delta.h2o⟩

/-- Rust: gas_from_parts. The Rust function first asserts volume > 0,
pressure ≥ 0, all parts ≥ 0 and divisor > 0 (panic otherwise); those
preconditions appear as hypotheses of the theorems below. -/
def gas_from_parts (volume : Volume) (pressure o2_parts co2_parts h2o_parts divisor : Int) :
    Gas :=
  let total := pressure * volume.value
  let raw_o2 := total * o2_parts
  let raw_co2 := total * co2_parts
  let raw_h2o := total * h2o_parts
  let o2 := raw_o2.tdiv divisor
  let co2 := raw_co2.tdiv divisor
  let h2o := raw_h2o.tdiv divisor
  ⟨o2, co2, 0, h2o⟩

/-- Rust: Fluid — liquid water amount. -/
structure Fluid where
  h2o : Int
deriving DecidableEq

/-- Rust: Fluid::zero. -/
def Fluid.zero : Fluid := ⟨0⟩

/-- Rust: Fluid::can_apply_delta. -/
def Fluid.can_apply_delta (f delta : Fluid) : Bool :=
  decide (0 ≤ f.h2o + delta.h2o)

/-- Rust: Fluid::apply_delta. -/
def Fluid.apply_delta (f delta : Fluid) : Fluid := ⟨f.h2o + delta.h2o⟩

/-- Rust: Solid — organic biomass amount. -/
structure Solid where
  ch2o : Int
deriving DecidableEq

/-- Rust: Solid::zero. -/
def Solid.zero : Solid := ⟨0⟩

/-- Rust: Solid::can_apply_delta. -/
def Solid.can_apply_delta (s delta : Solid) : Bool :=
  decide (0 ≤ s.ch2o + delta.ch2o)

/-- Rust: Solid::apply_delta. -/
def Solid.apply_delta (s delta : Solid) : Solid := ⟨s.ch2o + delta.ch2o⟩

/-- Rust: Container. -/
structure Container where
  volume : Volume
  gas : Gas
  fluid : Fluid
  solid : Solid
  children : List ContainerId
deriving DecidableEq

/-- Rust: Container::new — empty child list. -/
def Container.new (volume : Volume) (gas : Gas) (fluid : Fluid) (solid : Solid) : Container :=
  ⟨volume, gas, fluid, solid, []⟩

/-- Rust: Container::pressure. -/
def Container.pressure (c : Container) : Int := c.gas.pressure c.volume

/-- Rust: Pipe. -/
structure Pipe where
  a : ContainerId
  b : ContainerId
  flow_rate : Gas
deriving DecidableEq

/-- Rust: Pipe::new asserts the flow rates are non-negative; the panic is
modelled as `none`. -/
def Pipe.new (a b : ContainerId) (flow_rate : Gas) : Option Pipe :=
  if flow_rate.is_non_negative then some ⟨a, b, flow_rate⟩ else none

/-- Rust: Reaction. -/
structure Reaction where
  container : ContainerId
  gas_delta : Gas
  fluid_delta : Fluid
  solid_delta : Solid
deriving DecidableEq

/-- Rust: Reaction::new. -/
def Reaction.new (container : ContainerId) (gas_delta : Gas) (fluid_delta : Fluid)
    (solid_delta : Solid) : Reaction :=
  ⟨container, gas_delta, fluid_delta, solid_delta⟩

/-- Rust: Reaction::check — the three atom-balance identities. -/
def Reaction.check (r : Reaction) : Bool :=
  let gas := r.gas_delta
  let fluid := r.fluid_delta
  let solid := r.solid_delta
  let carbon := gas.co2 + gas.co + solid.ch2o
  let hydrogen := 2 * (gas.h2o + fluid.h2o + solid.ch2o)
  let oxygen := 2 * gas.o2 + 2 * gas.co2 + gas.co + gas.h2o + fluid.h2o + solid.ch2o
  decide (carbon = 0) && decide (hydrogen = 0) && decide (oxygen = 0)

/-- Rust: Engine. -/
structure Engine where
  containers : List Container
  pipes : List Pipe
  reactions : List Reaction
  root : ContainerId
deriving DecidableEq

/-- Rust: Engine::insert_container — appends and returns the fresh id. -/
def Engine.insert_container (e : Engine) (volume : Volume) (gas : Gas) (fluid : Fluid)
    (solid : Solid) : Engine × ContainerId :=
  let id : ContainerId := ⟨e.containers.length⟩
  ({ e with containers := e.containers ++ [Container.new volume gas fluid solid] }, id)

/-- Rust: Engine::new — creates the engine with one root container.
No check is performed on the volume or the initial amounts. -/
def Engine.new (volume : Volume) (gas : Gas) (fluid : Fluid) (solid : Solid) : Engine :=
  let e0 : Engine := ⟨[], [], [], ⟨0⟩⟩
  let p := e0.insert_container volume gas fluid solid
  { p.1 with root := p.2 }

/-- Rust: Engine::add_container — inserts, then pushes the new id onto the
parent's child list; indexing an out-of-range parent panics (`none`). -/
def Engine.add_container (e : Engine) (parent : ContainerId) (volume : Volume) (gas : Gas)
    (fluid : Fluid) (solid : Solid) : Option (Engine × ContainerId) :=
  let p := e.insert_container volume gas fluid solid
  match p.1.containers[parent.index]? with
  | none => none
  | some c =>
    some ({ p.1 with
              containers := p.1.containers.set parent.index
                { c with children := c.children ++ [p.2] } },
          p.2)

/-- Rust: Engine::add_pipe — asserts a ≠ b, then Pipe::new asserts the
rates; both panics are modelled as `none`. -/
def Engine.add_pipe (e : Engine) (a b : ContainerId) (flow_rate : Gas) : Option Engine :=
  if a = b then none
  else
    match Pipe.new a b flow_rate with
    | none => none
    | some p => some { e with pipes := e.pipes ++ [p] }

/-- Rust: Engine::add_reaction — asserts Reaction::check (panic as `none`);
an accepted reaction is appended to the reaction list. -/
def Engine.add_reaction (e : Engine) (container : ContainerId) (gas_delta : Gas)
    (fluid_delta : Fluid) (solid_delta : Solid) : Option Engine :=
  let reaction := Reaction.new container gas_delta fluid_delta solid_delta
  if reaction.check then some { e with reactions := e.reactions ++ [reaction] } else none

/-- Rust: Engine::flow_amount. The i64 inputs are widened to i128 in the
source; over those ranges the i128 arithmetic cannot overflow (proved in
the C1 theorem), so the computation is modelled directly over unbounded
integers, with `Int.tdiv` for Rust's truncating `/`. -/
def Engine.flow_amount (amount_a : Int) (volume_a : Volume) (amount_b : Int)
    (volume_b : Volume) (max_flow : Int) : Int :=
  let va := volume_a.value
  let vb := volume_b.value
  let numerator := amount_a * vb - amount_b * va
  let denom := va + vb
  if denom ≤ 0 then 0
  else
    let equalize := numerator.tdiv denom
    let hi := min amount_a max_flow
    let lo := -(min amount_b max_flow)
    if equalize > hi then hi
    else if equalize < lo then lo
    else equalize

/-- One iteration of the reaction loop inside Rust Engine::tick: feasibility
is tested on gas, fluid and solid; only when all three pass are the three
deltas applied. Rust indexes containers[reaction.container] and would panic
out of range; that case is modelled as no change and excluded by the
theorems' hypotheses. -/
def Engine.apply_reaction (containers : List Container) (reaction : Reaction) :
    List Container :=
  match containers[reaction.container.index]? with
  | none => containers
  | some c =>
    if c.gas.can_apply_delta reaction.gas_delta
        && c.fluid.can_apply_delta reaction.fluid_delta
        && c.solid.can_apply_delta reaction.solid_delta then
      containers.set reaction.container.index
        { c with
            gas := c.gas.apply_delta reaction.gas_delta,
            fluid := c.fluid.apply_delta reaction.fluid_delta,
            solid := c.solid.apply_delta reaction.solid_delta }
    else containers

/-- Rust: Engine::apply_pipe_flow. container_pair_mut asserts the endpoint
indices are distinct and in range (panic otherwise); the panic cases are
modelled as an unchanged state and excluded by well-formedness hypotheses. -/
def Engine.apply_pipe_flow (containers : List Container) (pipe : Pipe) : List Container :=
  match containers[pipe.a.index]?, containers[pipe.b.index]? with
  | some ca, some cb =>
    if pipe.a.index = pipe.b.index then containers
    else
      let o2_flow := Engine.flow_amount ca.gas.o2 ca.volume cb.gas.o2 cb.volume
        pipe.flow_rate.o2
      let co2_flow := Engine.flow_amount ca.gas.co2 ca.volume cb.gas.co2 cb.volume
        pipe.flow_rate.co2
      let co_flow := Engine.flow_amount ca.gas.co ca.volume cb.gas.co cb.volume
        pipe.flow_rate.co
      let h2o_flow := Engine.flow_amount ca.gas.h2o ca.volume cb.gas.h2o cb.volume
        pipe.flow_rate.h2o
      let delta : Gas := ⟨-o2_flow, -co2_flow, -co_flow, -h2o_flow⟩
      let inverse : Gas := ⟨o2_flow, co2_flow, co_flow, h2o_flow⟩
      let ca2 := { ca with gas := ca.gas.apply_delta delta }
      let cb2 := { cb with gas := cb.gas.apply_delta inverse }
      (containers.set pipe.a.index ca2).set pipe.b.index cb2
  | _, _ => containers

/-- Rust: Engine::tick — all reactions in registration order, then all pipe
flows in registration order. -/
def Engine.tick (e : Engine) : Engine :=
  let cs1 := e.reactions.foldl Engine.apply_reaction e.containers
  let cs2 := e.pipes.foldl Engine.apply_pipe_flow cs1
  { e with containers := cs2 }

/-- Gas state of container i (composition of Engine::container and the gas
field); Gas.zero out of range (the theorems only use in-range indices). -/
def gas_at (cs : List Container) (i : Nat) : Gas :=
  ((cs[i]?).map Container.gas).getD Gas.zero

/-- Per-species pressure of container i, composing Engine::container with
Gas::partial_pressure; 0 out of range. -/
def Engine.species_pressure_at (e : Engine) (i : Nat) (amount : Gas → Int) : Int :=
  match e.containers[i]? with
  | some c => Gas.species_pressure (amount c.gas) c.volume
  | none => 0

/-- All seven stored amounts of a container are non-negative. -/
def Container.non_negative (c : Container) : Prop :=
  c.gas.is_non_negative = true ∧ 0 ≤ c.fluid.h2o ∧ 0 ≤ c.solid.ch2o

instance (c : Container) : Decidable c.non_negative := by
  unfold Container.non_negative; infer_instance

/-- Every container of the engine is non-negative. -/
def Engine.non_negative (e : Engine) : Prop := ∀ c ∈ e.containers, c.non_negative

instance (e : Engine) : Decidable e.non_negative := by
  unfold Engine.non_negative; infer_instance

/-- Pipe well-formedness established by Engine::add_pipe and Pipe::new:
distinct endpoints and non-negative flow rates. -/
def Engine.pipes_wf (e : Engine) : Prop :=
  ∀ p ∈ e.pipes, p.a.index ≠ p.b.index ∧ p.flow_rate.is_non_negative = true

instance (e : Engine) : Decidable e.pipes_wf := by
  unfold Engine.pipes_wf; infer_instance

/-- Reaction well-formedness established by Engine::add_reaction: every
stored reaction passes Reaction::check. -/
def Engine.reactions_wf (e : Engine) : Prop :=
  ∀ r ∈ e.reactions, r.check = true

instance (e : Engine) : Decidable e.reactions_wf := by
  unfold Engine.reactions_wf; infer_instance

/-- Carbon atom count of one container: CO2 + CO + CH2O. -/
def Container.carbon (c : Container) : Int :=
  c.gas.co2 + c.gas.co + c.solid.ch2o

/-- Hydrogen atom count of one container: 2·(H2O(g) + H2O(l) + CH2O). -/
def Container.hydrogen (c : Container) : Int :=
  2 * (c.gas.h2o + c.fluid.h2o + c.solid.ch2o)

/-- Oxygen atom count of one container. -/
def Container.oxygen (c : Container) : Int :=
  2 * c.gas.o2 + 2 * c.gas.co2 + c.gas.co + c.gas.h2o + c.fluid.h2o + c.solid.ch2o

/-- Total carbon over all containers. -/
def Engine.total_carbon (e : Engine) : Int := (e.containers.map Container.carbon).sum

/-- Total hydrogen over all containers. -/
def Engine.total_hydrogen (e : Engine) : Int := (e.containers.map Container.hydrogen).sum

/-- Total oxygen over all containers. -/
def Engine.total_oxygen (e : Engine) : Int := (e.containers.map Container.oxygen).sum

/-- Two containers joined by one pipe and no reactions: the configuration of
the equilibrium-convergence property. -/
def two_container_engine (c0 c1 : Container) (rate : Gas) : Engine :=
  ⟨[c0, c1], [⟨⟨0⟩, ⟨1⟩, rate⟩], [], ⟨0⟩⟩

/-! ## General helper lemmas -/

/-- An element read by index is a member of the list. -/
theorem mem_of_getElem_eq {α : Type} {l : List α} {i : Nat} {a : α}
    (h : l[i]? = some a) : a ∈ l := by
  obtain ⟨hlt, rfl⟩ := List.getElem?_eq_some.mp h
  exact List.getElem_mem hlt

/-- Truncating division of a negative numerator by a positive divisor,
expressed through Euclidean division. -/
theorem tdiv_of_neg {n d : Int} (hn : n < 0) (hd : 0 < d) :
    n.tdiv d = -((-n) / d) := by
  rw [show n = -(-n) by ring, Int.neg_tdiv, Int.tdiv_eq_ediv (by omega) hd.le]
  simp

/-- Truncating division by a positive divisor is at most c whenever the
numerator is at most c·d, for non-negative c. -/
theorem tdiv_le_of_le_mul {n d c : Int} (hd : 0 < d) (hc : 0 ≤ c) (h : n ≤ c * d) :
    n.tdiv d ≤ c := by
  rcases le_or_lt 0 n with hn | hn
  · rw [Int.tdiv_eq_ediv hn hd.le]
    calc n / d ≤ c * d / d := Int.ediv_le_ediv hd h
      _ = c := Int.mul_ediv_cancel c hd.ne'
  · rw [tdiv_of_neg hn hd]
    have : 0 ≤ (-n) / d := Int.ediv_nonneg (by omega) hd.le
    omega

/-- Symmetric lower bound for truncating division. -/
theorem neg_le_tdiv_of_mul_le {n d c : Int} (hd : 0 < d) (hc : 0 ≤ c)
    (h : -(c * d) ≤ n) : -c ≤ n.tdiv d := by
  have h2 : (-n).tdiv d ≤ c := tdiv_le_of_le_mul hd hc (by omega)
  rw [Int.neg_tdiv] at h2
  omega

/-- The remainder left by truncating division has magnitude below the
(positive) divisor. -/
theorem tdiv_remainder_bounds {n d : Int} (hd : 0 < d) :
    -d < n - d * n.tdiv d ∧ n - d * n.tdiv d < d := by
  rcases le_or_lt 0 n with hn | hn
  · rw [Int.tdiv_eq_ediv hn hd.le]
    have h2 := Int.emod_nonneg n hd.ne'
    have h3 := Int.emod_lt_of_pos n hd
    have e1 : n - d * (n / d) = n % d := by linarith [Int.ediv_add_emod n d]
    rw [e1]
    constructor <;> linarith
  · rw [tdiv_of_neg hn hd]
    have h2 := Int.emod_nonneg (-n) hd.ne'
    have h3 := Int.emod_lt_of_pos (-n) hd
    have e1 : n - d * -((-n) / d) = -((-n) % d) := by
      linarith [Int.ediv_add_emod (-n) d]
    rw [e1]
    constructor <;> linarith

/-- The flow through a pipe stays inside the availability/capacity
interval whenever amounts and capacity are non-negative. -/
theorem flow_amount_range (a b mf : Int) (va vb : Volume)
    (ha : 0 ≤ a) (hb : 0 ≤ b) (hmf : 0 ≤ mf) :
    -(min b mf) ≤ Engine.flow_amount a va b vb mf ∧
      Engine.flow_amount a va b vb mf ≤ min a mf := by
  simp only [Engine.flow_amount, Volume.value]
  split_ifs <;> omega

/-- C1 theorem: for non-negative amounts and capacity (as maintained by the
engine), flow_amount returns 0 when the volume sum is non-positive and
otherwise the truncated equalization quotient clamped into
[-min(amount_b, max_flow), +min(amount_a, max_flow)]; moreover, for inputs
in i64 range the widened cross-multiplication stays within i128 bounds and
the result stays within i64 bounds (no overflow anywhere). -/
theorem flow_amount_spec (a b mf : Int) (va vb : Volume)
    (ha : 0 ≤ a) (ha' : a < 2 ^ 63) (hb : 0 ≤ b) (hb' : b < 2 ^ 63)
    (hmf : 0 ≤ mf) (hmf' : mf < 2 ^ 63)
    (hva : -(2 ^ 63) ≤ va.val) (hva' : va.val < 2 ^ 63)
    (hvb : -(2 ^ 63) ≤ vb.val) (hvb' : vb.val < 2 ^ 63) :
    (va.val + vb.val ≤ 0 → Engine.flow_amount a va b vb mf = 0) ∧
    (0 < va.val + vb.val →
      Engine.flow_amount a va b vb mf =
        max (-(min b mf))
          (min (min a mf) ((a * vb.val - b * va.val).tdiv (va.val + vb.val)))) ∧
    (-(2 ^ 127) ≤ a * vb.val - b * va.val ∧ a * vb.val - b * va.val < 2 ^ 127) ∧
    (-(2 ^ 63) ≤ Engine.flow_amount a va b vb mf ∧
      Engine.flow_amount a va b vb mf < 2 ^ 63) := by
  have hA1 : a * vb.val < 2 ^ 126 := by nlinarith
  have hA2 : -(2 ^ 126) ≤ a * vb.val := by nlinarith
  have hB1 : b * va.val < 2 ^ 126 := by nlinarith
  have hB2 : -(2 ^ 126) ≤ b * va.val := by nlinarith
  have hrange := flow_amount_range a b mf va vb ha hb hmf
  refine ⟨?_, ?_, ⟨by linarith, by linarith⟩, by omega⟩
  · intro hd
    simp only [Engine.flow_amount, Volume.value]
    split_ifs <;> omega
  · intro hd
    simp only [Engine.flow_amount, Volume.value]
    split_ifs <;> omega

/-- Core arithmetic fact behind equilibrium convergence: moving the
truncated one-step equalization amount leaves the two truncated per-volume
ratios within one unit of each other. -/
theorem equalize_pressure_close (a b va vb q : Int)
    (hva : 0 < va) (hvb : 0 < vb) (ha : 0 ≤ a) (hb : 0 ≤ b)
    (hq : q = (a * vb - b * va).tdiv (va + vb)) :
    |(a - q).tdiv va - (b + q).tdiv vb| ≤ 1 := by
  have hd : 0 < va + vb := by linarith
  have hqa : q ≤ a := by
    rw [hq]
    refine tdiv_le_of_le_mul hd ha ?_
    nlinarith [mul_nonneg ha hva.le, mul_nonneg hb hva.le]
  have hqb : -b ≤ q := by
    rw [hq]
    refine neg_le_tdiv_of_mul_le hd hb ?_
    nlinarith [mul_nonneg ha hvb.le, mul_nonneg hb hvb.le]
  have ha' : 0 ≤ a - q := by omega
  have hb' : 0 ≤ b + q := by omega
  have hr := tdiv_remainder_bounds (n := a * vb - b * va) hd
  rw [← hq] at hr
  have hpa := Int.ediv_add_emod (a - q) va
  have hsa1 := Int.emod_nonneg (a - q) hva.ne'
  have hsa2 := Int.emod_lt_of_pos (a - q) hva
  have hpb := Int.ediv_add_emod (b + q) vb
  have hsb1 := Int.emod_nonneg (b + q) hvb.ne'
  have hsb2 := Int.emod_lt_of_pos (b + q) hvb
  rw [Int.tdiv_eq_ediv ha' hva.le, Int.tdiv_eq_ediv hb' hvb.le]
  set pa := (a - q) / va with hpa'
  set pb := (b + q) / vb with hpb'
  set s := (a - q) % va with hs'
  set t := (b + q) % vb with ht'
  have key : va * vb * (pa - pb) =
      (a * vb - b * va - (va + vb) * q) - s * vb + t * va := by
    nlinarith [hpa, hpb]
  rw [abs_le]
  constructor
  · by_contra hcon
    push_neg at hcon
    have f1 : va * vb * (pa - pb) ≤ va * vb * (-2) :=
      mul_le_mul_of_nonneg_left (by omega) (mul_pos hva hvb).le
    have f2 : s * vb ≤ (va - 1) * vb :=
      mul_le_mul_of_nonneg_right (by omega) hvb.le
    have f3 : 0 ≤ t * va := mul_nonneg hsb1 hva.le
    have f4 : va * 1 ≤ va * vb := mul_le_mul_of_nonneg_left (by omega) hva.le
    linarith [hr.1, key]
  · by_contra hcon
    push_neg at hcon
    have f1 : va * vb * 2 ≤ va * vb * (pa - pb) :=
      mul_le_mul_of_nonneg_left (by omega) (mul_pos hva hvb).le
    have f2 : t * va ≤ (vb - 1) * va :=
      mul_le_mul_of_nonneg_right (by omega) hva.le
    have f3 : 0 ≤ s * vb := mul_nonneg hsa1 hvb.le
    have f4 : vb * 1 ≤ vb * va := mul_le_mul_of_nonneg_left (by omega) hvb.le
    linarith [hr.2, key]

/-- When the capacity covers the truncated equalization amount and the two
amounts are available, no clamp fires and the flow equals the truncated
equalization amount. -/
theorem flow_amount_eq_equalize {a b mf : Int} {va vb : Volume}
    (hva : 0 < va.val) (hvb : 0 < vb.val) (ha : 0 ≤ a) (hb : 0 ≤ b)
    (hmf : |(a * vb.val - b * va.val).tdiv (va.val + vb.val)| ≤ mf) :
    Engine.flow_amount a va b vb mf =
      (a * vb.val - b * va.val).tdiv (va.val + vb.val) := by
  have hd : 0 < va.val + vb.val := by linarith
  have h1 : (a * vb.val - b * va.val).tdiv (va.val + vb.val) ≤ a :=
    tdiv_le_of_le_mul hd ha
      (by nlinarith [mul_nonneg ha hva.le, mul_nonneg hb hva.le])
  have h2 : -b ≤ (a * vb.val - b * va.val).tdiv (va.val + vb.val) :=
    neg_le_tdiv_of_mul_le hd hb
      (by nlinarith [mul_nonneg ha hvb.le, mul_nonneg hb hvb.le])
  rw [abs_le] at hmf
  simp only [Engine.flow_amount, Volume.value]
  split_ifs <;> omega

/-- After one adequate pipe exchange of a species, the truncated pressures
of the two endpoints differ by at most one. -/
theorem species_equalize_close {a b mf : Int} {va vb : Volume}
    (hva : 0 < va.val) (hvb : 0 < vb.val) (ha : 0 ≤ a) (hb : 0 ≤ b)
    (hmf : |(a * vb.val - b * va.val).tdiv (va.val + vb.val)| ≤ mf) :
    |Gas.species_pressure (a + -Engine.flow_amount a va b vb mf) va -
      Gas.species_pressure (b + Engine.flow_amount a va b vb mf) vb| ≤ 1 := by
  rw [flow_amount_eq_equalize hva hvb ha hb hmf]
  have h := equalize_pressure_close a b va.val vb.val
    ((a * vb.val - b * va.val).tdiv (va.val + vb.val)) hva hvb ha hb rfl
  simpa [Gas.species_pressure, Volume.value, sub_eq_add_neg] using h

/-- C1 witness: the theorem applied at amounts 10 and 0, volumes 2 and 1,
capacity 100. -/
theorem flow_amount_spec_witness :
    Engine.flow_amount 10 ⟨2⟩ 0 ⟨1⟩ 100 =
      max (-(min 0 100))
        (min (min 10 100) (((10 : Int) * 1 - 0 * 2).tdiv (2 + 1))) :=
  (flow_amount_spec 10 0 100 ⟨2⟩ ⟨1⟩ (by decide) (by decide) (by decide) (by decide)
      (by decide) (by decide) (by decide) (by decide) (by decide) (by decide)).2.1
    (by decide)

/-- Setting an index to an element with the same f-image leaves the mapped
list unchanged. -/
theorem map_set_congr {α β : Type} (f : α → β) (l : List α) (i : Nat) (a : α)
    (h : ∀ b, l[i]? = some b → f a = f b) :
    (l.set i a).map f = l.map f := by
  induction l generalizing i with
  | nil => simp
  | cons x xs ih =>
    cases i with
    | zero => simp [h x (by simp)]
    | succ n =>
      simp only [List.set, List.map_cons, List.cons.injEq, true_and]
      exact ih n (fun b hb => h b (by simpa using hb))

/-- How one set changes a mapped sum. -/
theorem map_sum_set {α : Type} (f : α → Int) {l : List α} {i : Nat} {c : α}
    (c' : α) (h : l[i]? = some c) :
    ((l.set i c').map f).sum = (l.map f).sum + (f c' - f c) := by
  induction l generalizing i with
  | nil => simp at h
  | cons x xs ih =>
    cases i with
    | zero =>
      obtain rfl : x = c := by simpa using h
      simp only [List.set, List.map_cons, List.sum_cons]
      ring
    | succ n =>
      have h' : xs[n]? = some c := by simpa using h
      simp only [List.set, List.map_cons, List.sum_cons, ih h']
      ring

/-- One reaction step does not touch volumes, child lists or the container
count. -/
theorem apply_reaction_frame (cs : List Container) (r : Reaction) :
    (Engine.apply_reaction cs r).map Container.volume = cs.map Container.volume ∧
    (Engine.apply_reaction cs r).map Container.children = cs.map Container.children ∧
    (Engine.apply_reaction cs r).length = cs.length := by
  unfold Engine.apply_reaction
  cases hc : cs[r.container.index]? with
  | none => exact ⟨rfl, rfl, rfl⟩
  | some c =>
    dsimp only
    split_ifs with hcan
    · refine ⟨map_set_congr _ _ _ _ ?_, map_set_congr _ _ _ _ ?_, List.length_set ..⟩
      all_goals intro b hb
      all_goals rw [hc] at hb
      all_goals injection hb with hb
      all_goals rw [← hb]
    · exact ⟨rfl, rfl, rfl⟩

/-- One pipe step does not touch volumes, child lists or the container
count. -/
theorem apply_pipe_flow_frame (cs : List Container) (p : Pipe) :
    (Engine.apply_pipe_flow cs p).map Container.volume = cs.map Container.volume ∧
    (Engine.apply_pipe_flow cs p).map Container.children = cs.map Container.children ∧
    (Engine.apply_pipe_flow cs p).length = cs.length := by
  unfold Engine.apply_pipe_flow
  cases hca : cs[p.a.index]? with
  | none => exact ⟨rfl, rfl, rfl⟩
  | some ca =>
    cases hcb : cs[p.b.index]? with
    | none => exact ⟨rfl, rfl, rfl⟩
    | some cb =>
      dsimp only
      split_ifs with hab
      · exact ⟨rfl, rfl, rfl⟩
      · have hb' : ∀ c2 : Container,
            (cs.set p.a.index c2)[p.b.index]? = cs[p.b.index]? :=
          fun _ => List.getElem?_set_ne hab
        refine ⟨?_, ?_, by simp [List.length_set]⟩
        all_goals rw [map_set_congr, map_set_congr]
        all_goals intro b hb
        · rw [hca] at hb; injection hb with hb; rw [← hb]
        · rw [hb', hcb] at hb; injection hb with hb; rw [← hb]
        · rw [hca] at hb; injection hb with hb; rw [← hb]
        · rw [hb', hcb] at hb; injection hb with hb; rw [← hb]

/-- The reaction fold preserves volumes, child lists and the count. -/
theorem reactions_foldl_frame (rs : List Reaction) (cs : List Container) :
    (rs.foldl Engine.apply_reaction cs).map Container.volume = cs.map Container.volume ∧
    (rs.foldl Engine.apply_reaction cs).map Container.children =
      cs.map Container.children ∧
    (rs.foldl Engine.apply_reaction cs).length = cs.length := by
  induction rs generalizing cs with
  | nil => exact ⟨rfl, rfl, rfl⟩
  | cons r rs ih =>
    have h1 := apply_reaction_frame cs r
    have h2 := ih (Engine.apply_reaction cs r)
    exact ⟨h2.1.trans h1.1, h2.2.1.trans h1.2.1, h2.2.2.trans h1.2.2⟩

/-- The pipe fold preserves volumes, child lists and the count. -/
theorem pipes_foldl_frame (ps : List Pipe) (cs : List Container) :
    (ps.foldl Engine.apply_pipe_flow cs).map Container.volume = cs.map Container.volume ∧
    (ps.foldl Engine.apply_pipe_flow cs).map Container.children =
      cs.map Container.children ∧
    (ps.foldl Engine.apply_pipe_flow cs).length = cs.length := by
  induction ps generalizing cs with
  | nil => exact ⟨rfl, rfl, rfl⟩
  | cons p ps ih =>
    have h1 := apply_pipe_flow_frame cs p
    have h2 := ih (Engine.apply_pipe_flow cs p)
    exact ⟨h2.1.trans h1.1, h2.2.1.trans h1.2.1, h2.2.2.trans h1.2.2⟩

/-- One reaction step preserves non-negativity of every container. -/
theorem apply_reaction_non_negative {cs : List Container} (r : Reaction)
    (h : ∀ c ∈ cs, c.non_negative) :
    ∀ c ∈ Engine.apply_reaction cs r, c.non_negative := by
  unfold Engine.apply_reaction
  cases hc : cs[r.container.index]? with
  | none => exact h
  | some c =>
    dsimp only
    split_ifs with hcan
    · intro c' hc'
      rcases List.mem_or_eq_of_mem_set hc' with hmem | rfl
      · exact h c' hmem
      · simp only [Bool.and_eq_true, Gas.can_apply_delta, Fluid.can_apply_delta,
          Solid.can_apply_delta, decide_eq_true_eq] at hcan
        simp only [Container.non_negative, Gas.is_non_negative, Gas.apply_delta,
          Fluid.apply_delta, Solid.apply_delta, Bool.and_eq_true, decide_eq_true_eq]
        refine ⟨⟨⟨⟨?_, ?_⟩, ?_⟩, ?_⟩, ?_, ?_⟩ <;> omega
    · exact h

/-- One pipe step preserves non-negativity given a non-negative flow rate. -/
theorem apply_pipe_flow_non_negative {cs : List Container} {p : Pipe}
    (hrate : p.flow_rate.is_non_negative = true)
    (h : ∀ c ∈ cs, c.non_negative) :
    ∀ c ∈ Engine.apply_pipe_flow cs p, c.non_negative := by
  unfold Engine.apply_pipe_flow
  cases hca : cs[p.a.index]? with
  | none => exact h
  | some ca =>
    cases hcb : cs[p.b.index]? with
    | none => exact h
    | some cb =>
      dsimp only
      split_ifs with hab
      · exact h
      · obtain ⟨hag, haf, has⟩ := h ca (mem_of_getElem_eq hca)
        obtain ⟨hbg, hbf, hbs⟩ := h cb (mem_of_getElem_eq hcb)
        simp only [Gas.is_non_negative, Bool.and_eq_true, decide_eq_true_eq]
          at hrate hag hbg
        obtain ⟨⟨⟨hr0, hr1⟩, hr2⟩, hr3⟩ := hrate
        obtain ⟨⟨⟨ha0, ha1⟩, ha2⟩, ha3⟩ := hag
        obtain ⟨⟨⟨hb0, hb1⟩, hb2⟩, hb3⟩ := hbg
        have hf0 := flow_amount_range ca.gas.o2 cb.gas.o2
          p.flow_rate.o2 ca.volume cb.volume ha0 hb0 hr0
        have hf1 := flow_amount_range ca.gas.co2 cb.gas.co2
          p.flow_rate.co2 ca.volume cb.volume ha1 hb1 hr1
        have hf2 := flow_amount_range ca.gas.co cb.gas.co
          p.flow_rate.co ca.volume cb.volume ha2 hb2 hr2
        have hf3 := flow_amount_range ca.gas.h2o cb.gas.h2o
          p.flow_rate.h2o ca.volume cb.volume ha3 hb3 hr3
        intro c' hc'
        rcases List.mem_or_eq_of_mem_set hc' with hmem | rfl
        · rcases List.mem_or_eq_of_mem_set hmem with hmem2 | rfl
          · exact h c' hmem2
          · simp only [Container.non_negative, Gas.is_non_negative, Gas.apply_delta,
              Bool.and_eq_true, decide_eq_true_eq]
            refine ⟨⟨⟨⟨?_, ?_⟩, ?_⟩, ?_⟩, haf, has⟩ <;> omega
        · simp only [Container.non_negative, Gas.is_non_negative, Gas.apply_delta,
            Bool.and_eq_true, decide_eq_true_eq]
          refine ⟨⟨⟨⟨?_, ?_⟩, ?_⟩, ?_⟩, hbf, hbs⟩ <;> omega

/-- The reaction fold preserves non-negativity. -/
theorem reactions_foldl_non_negative (rs : List Reaction) {cs : List Container}
    (h : ∀ c ∈ cs, c.non_negative) :
    ∀ c ∈ rs.foldl Engine.apply_reaction cs, c.non_negative := by
  induction rs generalizing cs with
  | nil => exact h
  | cons r rs ih => exact ih (apply_reaction_non_negative r h)

/-- The pipe fold preserves non-negativity given non-negative flow rates. -/
theorem pipes_foldl_non_negative (ps : List Pipe) {cs : List Container}
    (hps : ∀ p ∈ ps, p.flow_rate.is_non_negative = true)
    (h : ∀ c ∈ cs, c.non_negative) :
    ∀ c ∈ ps.foldl Engine.apply_pipe_flow cs, c.non_negative := by
  induction ps generalizing cs with
  | nil => exact h
  | cons p ps ih =>
    exact ih (fun q hq => hps q (List.mem_cons_of_mem p hq))
      (apply_pipe_flow_non_negative (hps p (List.mem_cons_self p ps)) h)

/-- One tick preserves non-negativity of every container. -/
theorem tick_non_negative {e : Engine} (hwf : e.pipes_wf) (h : e.non_negative) :
    e.tick.non_negative := by
  intro c hc
  exact pipes_foldl_non_negative e.pipes (fun p hp => (hwf p hp).2)
    (reactions_foldl_non_negative e.reactions h) c hc

/-- C2 theorem: from a non-negative state, any number of ticks keeps every
container's gas, fluid and solid amounts non-negative; the pipe
well-formedness hypothesis is the invariant Engine::add_pipe and Pipe::new
establish for every registered pipe. -/
theorem tick_iter_non_negative (e : Engine) (n : Nat)
    (hwf : e.pipes_wf) (h : e.non_negative) :
    (Engine.tick^[n] e).non_negative := by
  induction n generalizing e with
  | zero => simpa using h
  | succ n ih =>
    rw [Function.iterate_succ_apply]
    exact ih e.tick (fun p hp => hwf p hp) (tick_non_negative hwf h)

/-- C2 witness: two containers with a pipe of rate 3, ticked twice. -/
theorem tick_iter_non_negative_witness :
    (Engine.tick^[2] (two_container_engine ⟨⟨100⟩, ⟨1000, 0, 0, 0⟩, ⟨0⟩, ⟨0⟩, []⟩
        ⟨⟨50⟩, ⟨0, 0, 0, 0⟩, ⟨0⟩, ⟨0⟩, []⟩ ⟨3, 3, 3, 3⟩)).non_negative :=
  tick_iter_non_negative _ 2 (by decide) (by decide)

/-- C9 theorem: a tick leaves the pipe list, the reaction list, the root,
the container count and every container's volume and child list unchanged;
only gas/fluid/solid can change. -/
theorem tick_frame (e : Engine) :
    e.tick.pipes = e.pipes ∧ e.tick.reactions = e.reactions ∧ e.tick.root = e.root ∧
    e.tick.containers.length = e.containers.length ∧
    e.tick.containers.map Container.volume = e.containers.map Container.volume ∧
    e.tick.containers.map Container.children = e.containers.map Container.children := by
  have h1 := reactions_foldl_frame e.reactions e.containers
  have h2 := pipes_foldl_frame e.pipes
    (e.reactions.foldl Engine.apply_reaction e.containers)
  exact ⟨rfl, rfl, rfl, h2.2.2.trans h1.2.2, h2.1.trans h1.1, h2.2.1.trans h1.2.1⟩

/-- C6: for two containers with positive volumes, non-negative amounts, no
reactions and one pipe, whenever the pipe's flow rate for a species is at
least the one-step equalizing amount of that species, a single tick leaves
the two integer partial pressures of that species within 1 unit. -/
theorem tick_equalizes_two_containers (c0 c1 : Container) (rate : Gas)
    (hv0 : 0 < c0.volume.val) (hv1 : 0 < c1.volume.val)
    (hg0 : c0.gas.is_non_negative = true) (hg1 : c1.gas.is_non_negative = true) :
    (|(c0.gas.o2 * c1.volume.val - c1.gas.o2 * c0.volume.val).tdiv
        (c0.volume.val + c1.volume.val)| ≤ rate.o2 →
      |(two_container_engine c0 c1 rate).tick.species_pressure_at 0 Gas.o2 -
        (two_container_engine c0 c1 rate).tick.species_pressure_at 1 Gas.o2| ≤ 1) ∧
    (|(c0.gas.co2 * c1.volume.val - c1.gas.co2 * c0.volume.val).tdiv
        (c0.volume.val + c1.volume.val)| ≤ rate.co2 →
      |(two_container_engine c0 c1 rate).tick.species_pressure_at 0 Gas.co2 -
        (two_container_engine c0 c1 rate).tick.species_pressure_at 1 Gas.co2| ≤ 1) ∧
    (|(c0.gas.co * c1.volume.val - c1.gas.co * c0.volume.val).tdiv
        (c0.volume.val + c1.volume.val)| ≤ rate.co →
      |(two_container_engine c0 c1 rate).tick.species_pressure_at 0 Gas.co -
        (two_container_engine c0 c1 rate).tick.species_pressure_at 1 Gas.co| ≤ 1) ∧
    (|(c0.gas.h2o * c1.volume.val - c1.gas.h2o * c0.volume.val).tdiv
        (c0.volume.val + c1.volume.val)| ≤ rate.h2o →
      |(two_container_engine c0 c1 rate).tick.species_pressure_at 0 Gas.h2o -
        (two_container_engine c0 c1 rate).tick.species_pressure_at 1 Gas.h2o| ≤ 1) := by
  simp only [Gas.is_non_negative, Bool.and_eq_true, decide_eq_true_eq] at hg0 hg1
  obtain ⟨⟨⟨h00, h01⟩, h02⟩, h03⟩ := hg0
  obtain ⟨⟨⟨h10, h11⟩, h12⟩, h13⟩ := hg1
  refine ⟨fun hmf => ?_, fun hmf => ?_, fun hmf => ?_, fun hmf => ?_⟩ <;>
    simp [two_container_engine, Engine.tick, Engine.apply_pipe_flow,
      Engine.species_pressure_at, List.foldl, Gas.apply_delta, List.set]
  · exact species_equalize_close hv0 hv1 h00 h10 hmf
  · exact species_equalize_close hv0 hv1 h01 h11 hmf
  · exact species_equalize_close hv0 hv1 h02 h12 hmf
  · exact species_equalize_close hv0 hv1 h03 h13 hmf

/-- C6 witness: volumes 100 and 50, O2 amounts 1000 and 0 and a rate of
1000 on every species; one tick leaves both O2 partial pressures within one
unit (they both become 6). -/
theorem tick_equalizes_two_containers_witness :
    |(two_container_engine ⟨⟨100⟩, ⟨1000, 0, 0, 0⟩, ⟨0⟩, ⟨0⟩, []⟩
        ⟨⟨50⟩, ⟨0, 0, 0, 0⟩, ⟨0⟩, ⟨0⟩, []⟩
        ⟨1000, 1000, 1000, 1000⟩).tick.species_pressure_at 0 Gas.o2 -
      (two_container_engine ⟨⟨100⟩, ⟨1000, 0, 0, 0⟩, ⟨0⟩, ⟨0⟩, []⟩
        ⟨⟨50⟩, ⟨0, 0, 0, 0⟩, ⟨0⟩, ⟨0⟩, []⟩
        ⟨1000, 1000, 1000, 1000⟩).tick.species_pressure_at 1 Gas.o2| ≤ 1 :=
  (tick_equalizes_two_containers ⟨⟨100⟩, ⟨1000, 0, 0, 0⟩, ⟨0⟩, ⟨0⟩, []⟩
      ⟨⟨50⟩, ⟨0, 0, 0, 0⟩, ⟨0⟩, ⟨0⟩, []⟩ ⟨1000, 1000, 1000, 1000⟩
      (by decide) (by decide) (by decide) (by decide)).1 (by decide)

/-- Characterization of one pipe application when both endpoints resolve
and are distinct. -/
theorem apply_pipe_flow_eq {cs : List Container} {p : Pipe} {ca cb : Container}
    (hca : cs[p.a.index]? = some ca) (hcb : cs[p.b.index]? = some cb)
    (hab : p.a.index ≠ p.b.index) :
    Engine.apply_pipe_flow cs p =
      (cs.set p.a.index
        { ca with gas := ca.gas.apply_delta (Gas.mk
            (-(Engine.flow_amount ca.gas.o2 ca.volume cb.gas.o2 cb.volume p.flow_rate.o2))
            (-(Engine.flow_amount ca.gas.co2 ca.volume cb.gas.co2 cb.volume p.flow_rate.co2))
            (-(Engine.flow_amount ca.gas.co ca.volume cb.gas.co cb.volume p.flow_rate.co))
            (-(Engine.flow_amount ca.gas.h2o ca.volume cb.gas.h2o cb.volume p.flow_rate.h2o))) }).set
        p.b.index
        { cb with gas := cb.gas.apply_delta (Gas.mk
            (Engine.flow_amount ca.gas.o2 ca.volume cb.gas.o2 cb.volume p.flow_rate.o2)
            (Engine.flow_amount ca.gas.co2 ca.volume cb.gas.co2 cb.volume p.flow_rate.co2)
            (Engine.flow_amount ca.gas.co ca.volume cb.gas.co cb.volume p.flow_rate.co)
            (Engine.flow_amount ca.gas.h2o ca.volume cb.gas.h2o cb.volume p.flow_rate.h2o)) } := by
  unfold Engine.apply_pipe_flow
  rw [hca, hcb]
  dsimp only
  rw [if_neg hab]

/-- C3 theorem: per species, the magnitude of the amount a pipe moves is
bounded by that species' flow_rate, and neither endpoint goes negative. -/
theorem pipe_flow_bounds (cs : List Container) (p : Pipe)
    (hrate : p.flow_rate.is_non_negative = true)
    (hab : p.a.index ≠ p.b.index)
    (ha : p.a.index < cs.length) (hb : p.b.index < cs.length)
    (hga : (gas_at cs p.a.index).is_non_negative = true)
    (hgb : (gas_at cs p.b.index).is_non_negative = true) :
    (|(gas_at (Engine.apply_pipe_flow cs p) p.b.index).o2 -
        (gas_at cs p.b.index).o2| ≤ p.flow_rate.o2 ∧
      0 ≤ (gas_at (Engine.apply_pipe_flow cs p) p.a.index).o2 ∧
      0 ≤ (gas_at (Engine.apply_pipe_flow cs p) p.b.index).o2) ∧
    (|(gas_at (Engine.apply_pipe_flow cs p) p.b.index).co2 -
        (gas_at cs p.b.index).co2| ≤ p.flow_rate.co2 ∧
      0 ≤ (gas_at (Engine.apply_pipe_flow cs p) p.a.index).co2 ∧
      0 ≤ (gas_at (Engine.apply_pipe_flow cs p) p.b.index).co2) ∧
    (|(gas_at (Engine.apply_pipe_flow cs p) p.b.index).co -
        (gas_at cs p.b.index).co| ≤ p.flow_rate.co ∧
      0 ≤ (gas_at (Engine.apply_pipe_flow cs p) p.a.index).co ∧
      0 ≤ (gas_at (Engine.apply_pipe_flow cs p) p.b.index).co) ∧
    (|(gas_at (Engine.apply_pipe_flow cs p) p.b.index).h2o -
        (gas_at cs p.b.index).h2o| ≤ p.flow_rate.h2o ∧
      0 ≤ (gas_at (Engine.apply_pipe_flow cs p) p.a.index).h2o ∧
      0 ≤ (gas_at (Engine.apply_pipe_flow cs p) p.b.index).h2o) := by
  obtain ⟨ca, hca⟩ : ∃ ca, cs[p.a.index]? = some ca := ⟨_, List.getElem?_eq_getElem ha⟩
  obtain ⟨cb, hcb⟩ : ∃ cb, cs[p.b.index]? = some cb := ⟨_, List.getElem?_eq_getElem hb⟩
  simp only [gas_at, hca, hcb, Option.map_some', Option.getD_some] at hga hgb
  simp only [Gas.is_non_negative, Bool.and_eq_true, decide_eq_true_eq] at hrate hga hgb
  obtain ⟨⟨⟨hr0, hr1⟩, hr2⟩, hr3⟩ := hrate
  obtain ⟨⟨⟨ha0, ha1⟩, ha2⟩, ha3⟩ := hga
  obtain ⟨⟨⟨hb0, hb1⟩, hb2⟩, hb3⟩ := hgb
  have hf0 := flow_amount_range ca.gas.o2 cb.gas.o2
    p.flow_rate.o2 ca.volume cb.volume ha0 hb0 hr0
  have hf1 := flow_amount_range ca.gas.co2 cb.gas.co2
    p.flow_rate.co2 ca.volume cb.volume ha1 hb1 hr1
  have hf2 := flow_amount_range ca.gas.co cb.gas.co
    p.flow_rate.co ca.volume cb.volume ha2 hb2 hr2
  have hf3 := flow_amount_range ca.gas.h2o cb.gas.h2o
    p.flow_rate.h2o ca.volume cb.volume ha3 hb3 hr3
  rw [apply_pipe_flow_eq hca hcb hab]
  have e1 : ∀ x y : Container, ((cs.set p.a.index x).set p.b.index y)[p.b.index]? = some y :=
    fun x y => List.getElem?_set_self (by simp [hb])
  have e2 : ∀ x y : Container, ((cs.set p.a.index x).set p.b.index y)[p.a.index]? = some x := by
    intro x y
    rw [List.getElem?_set_ne (Ne.symm hab), List.getElem?_set_self ha]
  simp only [gas_at, e1, e2, hcb, Option.map_some', Option.getD_some, Gas.apply_delta]
  refine ⟨⟨?_, ?_, ?_⟩, ⟨?_, ?_, ?_⟩, ⟨?_, ?_, ?_⟩, ⟨?_, ?_, ?_⟩⟩ <;>
    (try rw [abs_le]) <;> omega


/-- C3 witness: containers with volumes 2 and 1 holding 10 and 0 O2, pipe
rate 3 on every species. -/
theorem pipe_flow_bounds_witness :
    |(gas_at (Engine.apply_pipe_flow
        [⟨⟨2⟩, ⟨10, 0, 0, 0⟩, ⟨0⟩, ⟨0⟩, []⟩, ⟨⟨1⟩, ⟨0, 0, 0, 0⟩, ⟨0⟩, ⟨0⟩, []⟩]
        ⟨⟨0⟩, ⟨1⟩, ⟨3, 3, 3, 3⟩⟩) 1).o2 -
      (gas_at [⟨⟨2⟩, ⟨10, 0, 0, 0⟩, ⟨0⟩, ⟨0⟩, []⟩,
        ⟨⟨1⟩, ⟨0, 0, 0, 0⟩, ⟨0⟩, ⟨0⟩, []⟩] 1).o2| ≤ (3 : Int) ∧
    0 ≤ (gas_at (Engine.apply_pipe_flow
        [⟨⟨2⟩, ⟨10, 0, 0, 0⟩, ⟨0⟩, ⟨0⟩, []⟩, ⟨⟨1⟩, ⟨0, 0, 0, 0⟩, ⟨0⟩, ⟨0⟩, []⟩]
        ⟨⟨0⟩, ⟨1⟩, ⟨3, 3, 3, 3⟩⟩) 0).o2 ∧
    0 ≤ (gas_at (Engine.apply_pipe_flow
        [⟨⟨2⟩, ⟨10, 0, 0, 0⟩, ⟨0⟩, ⟨0⟩, []⟩, ⟨⟨1⟩, ⟨0, 0, 0, 0⟩, ⟨0⟩, ⟨0⟩, []⟩]
        ⟨⟨0⟩, ⟨1⟩, ⟨3, 3, 3, 3⟩⟩) 1).o2 :=
  (pipe_flow_bounds
    [⟨⟨2⟩, ⟨10, 0, 0, 0⟩, ⟨0⟩, ⟨0⟩, []⟩, ⟨⟨1⟩, ⟨0, 0, 0, 0⟩, ⟨0⟩, ⟨0⟩, []⟩]
    ⟨⟨0⟩, ⟨1⟩, ⟨3, 3, 3, 3⟩⟩ (by decide) (by decide) (by decide) (by decide)
    (by decide) (by decide)).1

/-- C4 theorem: within tick, one reaction is all-or-nothing: if any of the
three feasibility checks fails the container list is unchanged; if all
three pass, all three deltas are applied to the target container. -/
theorem reaction_skip_atomic (cs : List Container) (r : Reaction) (c : Container)
    (hc : cs[r.container.index]? = some c) :
    (¬(c.gas.can_apply_delta r.gas_delta = true ∧
        c.fluid.can_apply_delta r.fluid_delta = true ∧
        c.solid.can_apply_delta r.solid_delta = true) →
      Engine.apply_reaction cs r = cs) ∧
    ((c.gas.can_apply_delta r.gas_delta = true ∧
        c.fluid.can_apply_delta r.fluid_delta = true ∧
        c.solid.can_apply_delta r.solid_delta = true) →
      Engine.apply_reaction cs r = cs.set r.container.index
        { c with gas := c.gas.apply_delta r.gas_delta,
                 fluid := c.fluid.apply_delta r.fluid_delta,
                 solid := c.solid.apply_delta r.solid_delta }) := by
  unfold Engine.apply_reaction
  rw [hc]
  dsimp only
  constructor
  · intro hno
    rw [if_neg]
    simp only [Bool.and_eq_true]
    tauto
  · intro hyes
    rw [if_pos]
    simp only [Bool.and_eq_true]
    tauto

/-- C4 witness: a reaction that would take o2 below zero leaves the single
container untouched. -/
theorem reaction_skip_atomic_witness :
    Engine.apply_reaction [⟨⟨5⟩, ⟨1, 0, 0, 0⟩, ⟨0⟩, ⟨0⟩, []⟩]
        ⟨⟨0⟩, ⟨-2, 2, 0, 0⟩, ⟨0⟩, ⟨0⟩⟩ =
      [⟨⟨5⟩, ⟨1, 0, 0, 0⟩, ⟨0⟩, ⟨0⟩, []⟩] :=
  (reaction_skip_atomic [⟨⟨5⟩, ⟨1, 0, 0, 0⟩, ⟨0⟩, ⟨0⟩, []⟩]
    ⟨⟨0⟩, ⟨-2, 2, 0, 0⟩, ⟨0⟩, ⟨0⟩⟩ ⟨⟨5⟩, ⟨1, 0, 0, 0⟩, ⟨0⟩, ⟨0⟩, []⟩
    (by decide)).1 (by decide)

/-- C5 theorem: registering a reaction succeeds exactly when the three
atom-balance identities hold; otherwise the call is fatal and nothing is
stored. -/
theorem add_reaction_succeeds_iff (e : Engine) (container : ContainerId)
    (gas_delta : Gas) (fluid_delta : Fluid) (solid_delta : Solid) :
    (e.add_reaction container gas_delta fluid_delta solid_delta).isSome ↔
      (gas_delta.co2 + gas_delta.co + solid_delta.ch2o = 0 ∧
       2 * (gas_delta.h2o + fluid_delta.h2o + solid_delta.ch2o) = 0 ∧
       2 * gas_delta.o2 + 2 * gas_delta.co2 + gas_delta.co + gas_delta.h2o +
         fluid_delta.h2o + solid_delta.ch2o = 0) := by
  unfold Engine.add_reaction Reaction.new Reaction.check
  dsimp only
  split_ifs with h
  · simp only [Option.isSome_some, true_iff]
    simp only [Bool.and_eq_true, decide_eq_true_eq] at h
    exact ⟨h.1.1, h.1.2, h.2⟩
  · simp only [Bool.and_eq_true, decide_eq_true_eq] at h
    constructor
    · intro hfalse
      simp at hfalse
    · intro hcon
      exact absurd ⟨⟨hcon.1, hcon.2.1⟩, hcon.2.2⟩ h

/-- C7 counterexample: all preconditions of the claim hold at volume 1,
pressure 1, parts 1/1/1, divisor 1, yet the output sums to 3, exceeding
pressure · volume = 1. -/
theorem gas_from_parts_sum_counterexample :
    (Volume.mk 1).value > 0 ∧ (1 : Int) ≥ 0 ∧ (1 : Int) ≥ 0 ∧ (1 : Int) ≥ 0 ∧
      (1 : Int) ≥ 0 ∧ (1 : Int) > 0 ∧
      ¬((gas_from_parts ⟨1⟩ 1 1 1 1 1).o2 + (gas_from_parts ⟨1⟩ 1 1 1 1 1).co2 +
          (gas_from_parts ⟨1⟩ 1 1 1 1 1).co + (gas_from_parts ⟨1⟩ 1 1 1 1 1).h2o ≤
        1 * (Volume.mk 1).value) := by
  decide

/-- Euclidean division bound used by the C7 amendment. -/
theorem mul_ediv_le_self_of_pos {x d : Int} (hd : 0 < d) : d * (x / d) ≤ x := by
  have h1 := Int.ediv_add_emod x d
  have h2 := Int.emod_nonneg x hd.ne'
  linarith

/-- C7 amended theorem: with the extra precondition that the parts sum to
at most the divisor, the output species amounts sum to at most
pressure · volume. -/
theorem gas_from_parts_sum_le (volume : Volume)
    (pressure o2_parts co2_parts h2o_parts divisor : Int)
    (hv : 0 < volume.val) (hp : 0 ≤ pressure) (ho : 0 ≤ o2_parts)
    (hc : 0 ≤ co2_parts) (hh : 0 ≤ h2o_parts) (hd : 0 < divisor)
    (hparts : o2_parts + co2_parts + h2o_parts ≤ divisor) :
    (gas_from_parts volume pressure o2_parts co2_parts h2o_parts divisor).o2 +
      (gas_from_parts volume pressure o2_parts co2_parts h2o_parts divisor).co2 +
      (gas_from_parts volume pressure o2_parts co2_parts h2o_parts divisor).co +
      (gas_from_parts volume pressure o2_parts co2_parts h2o_parts divisor).h2o ≤
      pressure * volume.value := by
  simp only [gas_from_parts, Volume.value]
  have htot : 0 ≤ pressure * volume.val := mul_nonneg hp hv.le
  rw [Int.tdiv_eq_ediv (mul_nonneg htot ho) hd.le,
      Int.tdiv_eq_ediv (mul_nonneg htot hc) hd.le,
      Int.tdiv_eq_ediv (mul_nonneg htot hh) hd.le]
  have s1 := mul_ediv_le_self_of_pos (x := pressure * volume.val * o2_parts) hd
  have s2 := mul_ediv_le_self_of_pos (x := pressure * volume.val * co2_parts) hd
  have s3 := mul_ediv_le_self_of_pos (x := pressure * volume.val * h2o_parts) hd
  have hT : pressure * volume.val * (o2_parts + co2_parts + h2o_parts) ≤
      pressure * volume.val * divisor := mul_le_mul_of_nonneg_left hparts htot
  refine le_of_mul_le_mul_left ?_ hd
  nlinarith [s1, s2, s3, hT]

/-- C7 witness for the amendment: volume 2, pressure 3, parts 1/1/1 of 4. -/
theorem gas_from_parts_sum_le_witness :
    (gas_from_parts ⟨2⟩ 3 1 1 1 4).o2 + (gas_from_parts ⟨2⟩ 3 1 1 1 4).co2 +
      (gas_from_parts ⟨2⟩ 3 1 1 1 4).co + (gas_from_parts ⟨2⟩ 3 1 1 1 4).h2o ≤
      3 * (Volume.mk 2).value :=
  gas_from_parts_sum_le ⟨2⟩ 3 1 1 1 4 (by decide) (by decide) (by decide)
    (by decide) (by decide) (by decide) (by decide)

/-- C8 theorem: Volume::new performs no check, and Engine::new happily
builds a root container with a non-positive volume; nothing fails at the
call that introduces it, contradicting the specified fatal rejection. -/
theorem volume_new_accepts_nonpositive :
    (Volume.new 0).value ≤ 0 ∧
    (Engine.new (Volume.new 0) Gas.zero Fluid.zero Solid.zero).containers =
      [Container.new (Volume.new 0) Gas.zero Fluid.zero Solid.zero] ∧
    (Engine.new (Volume.new (-5)) Gas.zero Fluid.zero Solid.zero).containers.length
      = 1 := by
  decide

/-- One reaction application preserves any per-container quantity that its
deltas leave unchanged. -/
theorem apply_reaction_sum_eq (f : Container → Int) (cs : List Container) (r : Reaction)
    (hf : ∀ c : Container,
      f { c with
            gas := c.gas.apply_delta r.gas_delta,
            fluid := c.fluid.apply_delta r.fluid_delta,
            solid := c.solid.apply_delta r.solid_delta } = f c) :
    ((Engine.apply_reaction cs r).map f).sum = (cs.map f).sum := by
  unfold Engine.apply_reaction
  cases hc : cs[r.container.index]? with
  | none => rfl
  | some c =>
    dsimp only
    split_ifs with hcan
    · rw [map_sum_set f _ hc, hf c]
      ring
    · rfl

/-- One pipe application preserves any per-container quantity that a paired
transfer leaves unchanged in total. -/
theorem apply_pipe_flow_sum_eq (f : Container → Int) (cs : List Container) (p : Pipe)
    (hf : ∀ (ca cb : Container) (x1 x2 x3 x4 : Int),
      f { ca with gas := ca.gas.apply_delta ⟨-x1, -x2, -x3, -x4⟩ } +
        f { cb with gas := cb.gas.apply_delta ⟨x1, x2, x3, x4⟩ } = f ca + f cb) :
    ((Engine.apply_pipe_flow cs p).map f).sum = (cs.map f).sum := by
  cases hca : cs[p.a.index]? with
  | none => unfold Engine.apply_pipe_flow; rw [hca]
  | some ca =>
    cases hcb : cs[p.b.index]? with
    | none => unfold Engine.apply_pipe_flow; rw [hca, hcb]
    | some cb =>
      by_cases hab : p.a.index = p.b.index
      · unfold Engine.apply_pipe_flow
        rw [hca, hcb]
        dsimp only
        rw [if_pos hab]
      · rw [apply_pipe_flow_eq hca hcb hab]
        rw [map_sum_set f _ (show (cs.set p.a.index _)[p.b.index]? = some cb by
          rw [List.getElem?_set_ne hab]; exact hcb), map_sum_set f _ hca]
        have hkey := hf ca cb
          (Engine.flow_amount ca.gas.o2 ca.volume cb.gas.o2 cb.volume p.flow_rate.o2)
          (Engine.flow_amount ca.gas.co2 ca.volume cb.gas.co2 cb.volume p.flow_rate.co2)
          (Engine.flow_amount ca.gas.co ca.volume cb.gas.co cb.volume p.flow_rate.co)
          (Engine.flow_amount ca.gas.h2o ca.volume cb.gas.h2o cb.volume p.flow_rate.h2o)
        linarith [hkey]

/-- The reaction fold preserves such quantities. -/
theorem reactions_foldl_sum_eq (f : Container → Int) (rs : List Reaction)
    {cs : List Container}
    (hf : ∀ r ∈ rs, ∀ c : Container,
      f { c with
            gas := c.gas.apply_delta r.gas_delta,
            fluid := c.fluid.apply_delta r.fluid_delta,
            solid := c.solid.apply_delta r.solid_delta } = f c) :
    ((rs.foldl Engine.apply_reaction cs).map f).sum = (cs.map f).sum := by
  induction rs generalizing cs with
  | nil => rfl
  | cons r rs ih =>
    rw [List.foldl_cons,
      ih (fun q hq => hf q (List.mem_cons_of_mem r hq)),
      apply_reaction_sum_eq f cs r (hf r (List.mem_cons_self r rs))]

/-- The pipe fold preserves such quantities. -/
theorem pipes_foldl_sum_eq (f : Container → Int) (ps : List Pipe)
    {cs : List Container}
    (hf : ∀ (ca cb : Container) (x1 x2 x3 x4 : Int),
      f { ca with gas := ca.gas.apply_delta ⟨-x1, -x2, -x3, -x4⟩ } +
        f { cb with gas := cb.gas.apply_delta ⟨x1, x2, x3, x4⟩ } = f ca + f cb) :
    ((ps.foldl Engine.apply_pipe_flow cs).map f).sum = (cs.map f).sum := by
  induction ps generalizing cs with
  | nil => rfl
  | cons p ps ih =>
    rw [List.foldl_cons, ih, apply_pipe_flow_sum_eq f cs p hf]

/-- A balanced reaction leaves a container's carbon count unchanged. -/
theorem check_carbon {r : Reaction} (h : r.check = true) (c : Container) :
    Container.carbon
      { c with
          gas := c.gas.apply_delta r.gas_delta,
          fluid := c.fluid.apply_delta r.fluid_delta,
          solid := c.solid.apply_delta r.solid_delta } = Container.carbon c := by
  simp only [Reaction.check, Bool.and_eq_true, decide_eq_true_eq] at h
  simp only [Container.carbon, Gas.apply_delta, Fluid.apply_delta, Solid.apply_delta]
  omega

/-- A balanced reaction leaves a container's hydrogen count unchanged. -/
theorem check_hydrogen {r : Reaction} (h : r.check = true) (c : Container) :
    Container.hydrogen
      { c with
          gas := c.gas.apply_delta r.gas_delta,
          fluid := c.fluid.apply_delta r.fluid_delta,
          solid := c.solid.apply_delta r.solid_delta } = Container.hydrogen c := by
  simp only [Reaction.check, Bool.and_eq_true, decide_eq_true_eq] at h
  simp only [Container.hydrogen, Gas.apply_delta, Fluid.apply_delta, Solid.apply_delta]
  omega

/-- A balanced reaction leaves a container's oxygen count unchanged. -/
theorem check_oxygen {r : Reaction} (h : r.check = true) (c : Container) :
    Container.oxygen
      { c with
          gas := c.gas.apply_delta r.gas_delta,
          fluid := c.fluid.apply_delta r.fluid_delta,
          solid := c.solid.apply_delta r.solid_delta } = Container.oxygen c := by
  simp only [Reaction.check, Bool.and_eq_true, decide_eq_true_eq] at h
  simp only [Container.oxygen, Gas.apply_delta, Fluid.apply_delta, Solid.apply_delta]
  omega

/-- A paired transfer conserves carbon over the two endpoints. -/
theorem pipe_pair_carbon (ca cb : Container) (x1 x2 x3 x4 : Int) :
    Container.carbon { ca with gas := ca.gas.apply_delta ⟨-x1, -x2, -x3, -x4⟩ } +
      Container.carbon { cb with gas := cb.gas.apply_delta ⟨x1, x2, x3, x4⟩ } =
      Container.carbon ca + Container.carbon cb := by
  simp only [Container.carbon, Gas.apply_delta]
  ring

/-- A paired transfer conserves hydrogen over the two endpoints. -/
theorem pipe_pair_hydrogen (ca cb : Container) (x1 x2 x3 x4 : Int) :
    Container.hydrogen { ca with gas := ca.gas.apply_delta ⟨-x1, -x2, -x3, -x4⟩ } +
      Container.hydrogen { cb with gas := cb.gas.apply_delta ⟨x1, x2, x3, x4⟩ } =
      Container.hydrogen ca + Container.hydrogen cb := by
  simp only [Container.hydrogen, Gas.apply_delta]
  ring

/-- A paired transfer conserves oxygen over the two endpoints. -/
theorem pipe_pair_oxygen (ca cb : Container) (x1 x2 x3 x4 : Int) :
    Container.oxygen { ca with gas := ca.gas.apply_delta ⟨-x1, -x2, -x3, -x4⟩ } +
      Container.oxygen { cb with gas := cb.gas.apply_delta ⟨x1, x2, x3, x4⟩ } =
      Container.oxygen ca + Container.oxygen cb := by
  simp only [Container.oxygen, Gas.apply_delta]
  ring

/-- C10 theorem: a full tick conserves the total carbon, hydrogen and
oxygen atom counts over all containers, given the reaction well-formedness
that Engine::add_reaction enforces. -/
theorem tick_conserves_atoms (e : Engine) (hr : e.reactions_wf) :
    e.tick.total_carbon = e.total_carbon ∧
    e.tick.total_hydrogen = e.total_hydrogen ∧
    e.tick.total_oxygen = e.total_oxygen := by
  refine ⟨?_, ?_, ?_⟩
  · show ((e.pipes.foldl Engine.apply_pipe_flow
        (e.reactions.foldl Engine.apply_reaction e.containers)).map Container.carbon).sum
      = (e.containers.map Container.carbon).sum
    rw [pipes_foldl_sum_eq Container.carbon e.pipes pipe_pair_carbon,
      reactions_foldl_sum_eq Container.carbon e.reactions
        (fun r hrr c => check_carbon (hr r hrr) c)]
  · show ((e.pipes.foldl Engine.apply_pipe_flow
        (e.reactions.foldl Engine.apply_reaction e.containers)).map Container.hydrogen).sum
      = (e.containers.map Container.hydrogen).sum
    rw [pipes_foldl_sum_eq Container.hydrogen e.pipes pipe_pair_hydrogen,
      reactions_foldl_sum_eq Container.hydrogen e.reactions
        (fun r hrr c => check_hydrogen (hr r hrr) c)]
  · show ((e.pipes.foldl Engine.apply_pipe_flow
        (e.reactions.foldl Engine.apply_reaction e.containers)).map Container.oxygen).sum
      = (e.containers.map Container.oxygen).sum
    rw [pipes_foldl_sum_eq Container.oxygen e.pipes pipe_pair_oxygen,
      reactions_foldl_sum_eq Container.oxygen e.reactions
        (fun r hrr c => check_oxygen (hr r hrr) c)]

/-- C10 witness: two containers, one pipe and one balanced respiration-like
reaction; the three atom totals survive a tick. -/
theorem tick_conserves_atoms_witness :
    (Engine.mk [⟨⟨4⟩, ⟨5, 5, 0, 0⟩, ⟨1⟩, ⟨2⟩, []⟩, ⟨⟨2⟩, ⟨0, 0, 0, 0⟩, ⟨0⟩, ⟨0⟩, []⟩]
        [⟨⟨0⟩, ⟨1⟩, ⟨3, 3, 3, 3⟩⟩] [⟨⟨0⟩, ⟨-1, 1, 0, 1⟩, ⟨0⟩, ⟨-1⟩⟩] ⟨0⟩).tick.total_carbon =
      (Engine.mk [⟨⟨4⟩, ⟨5, 5, 0, 0⟩, ⟨1⟩, ⟨2⟩, []⟩, ⟨⟨2⟩, ⟨0, 0, 0, 0⟩, ⟨0⟩, ⟨0⟩, []⟩]
        [⟨⟨0⟩, ⟨1⟩, ⟨3, 3, 3, 3⟩⟩] [⟨⟨0⟩, ⟨-1, 1, 0, 1⟩, ⟨0⟩, ⟨-1⟩⟩] ⟨0⟩).total_carbon ∧
    (Engine.mk [⟨⟨4⟩, ⟨5, 5, 0, 0⟩, ⟨1⟩, ⟨2⟩, []⟩, ⟨⟨2⟩, ⟨0, 0, 0, 0⟩, ⟨0⟩, ⟨0⟩, []⟩]
        [⟨⟨0⟩, ⟨1⟩, ⟨3, 3, 3, 3⟩⟩] [⟨⟨0⟩, ⟨-1, 1, 0, 1⟩, ⟨0⟩, ⟨-1⟩⟩] ⟨0⟩).tick.total_hydrogen =
      (Engine.mk [⟨⟨4⟩, ⟨5, 5, 0, 0⟩, ⟨1⟩, ⟨2⟩, []⟩, ⟨⟨2⟩, ⟨0, 0, 0, 0⟩, ⟨0⟩, ⟨0⟩, []⟩]
        [⟨⟨0⟩, ⟨1⟩, ⟨3, 3, 3, 3⟩⟩] [⟨⟨0⟩, ⟨-1, 1, 0, 1⟩, ⟨0⟩, ⟨-1⟩⟩] ⟨0⟩).total_hydrogen ∧
    (Engine.mk [⟨⟨4⟩, ⟨5, 5, 0, 0⟩, ⟨1⟩, ⟨2⟩, []⟩, ⟨⟨2⟩, ⟨0, 0, 0, 0⟩, ⟨0⟩, ⟨0⟩, []⟩]
        [⟨⟨0⟩, ⟨1⟩, ⟨3, 3, 3, 3⟩⟩] [⟨⟨0⟩, ⟨-1, 1, 0, 1⟩, ⟨0⟩, ⟨-1⟩⟩] ⟨0⟩).tick.total_oxygen =
      (Engine.mk [⟨⟨4⟩, ⟨5, 5, 0, 0⟩, ⟨1⟩, ⟨2⟩, []⟩, ⟨⟨2⟩, ⟨0, 0, 0, 0⟩, ⟨0⟩, ⟨0⟩, []⟩]
        [⟨⟨0⟩, ⟨1⟩, ⟨3, 3, 3, 3⟩⟩] [⟨⟨0⟩, ⟨-1, 1, 0, 1⟩, ⟨0⟩, ⟨-1⟩⟩] ⟨0⟩).total_oxygen :=
  tick_conserves_atoms
    (Engine.mk [⟨⟨4⟩, ⟨5, 5, 0, 0⟩, ⟨1⟩, ⟨2⟩, []⟩, ⟨⟨2⟩, ⟨0, 0, 0, 0⟩, ⟨0⟩, ⟨0⟩, []⟩]
      [⟨⟨0⟩, ⟨1⟩, ⟨3, 3, 3, 3⟩⟩] [⟨⟨0⟩, ⟨-1, 1, 0, 1⟩, ⟨0⟩, ⟨-1⟩⟩] ⟨0⟩) (by decide)

end Dustfall
